import Mathlib

/-!
Verification development for the Horizon agent backend
(`src/apps/backend/src/agent/`).

The Python sources are shallowly embedded: dict-based records become
structures, in-place mutation becomes explicit state passing, wall-clock
reads (`datetime.utcnow()`) become an explicit `now : Nat` parameter, and
code that can raise returns `Option`/`Except`.  External collaborators
(the chat model, the tool implementations, `langgraph`'s prebuilt
`ToolNode`) are passed in as function parameters, mirroring the way the
Python code receives them by injection.
-/

namespace Horizon

/-! ### String helpers

Python string operations used by the heuristics: `.lower()`, substring
containment (`in`), `.split()` (whitespace words, empties dropped),
`.strip()`.  Strings are handled as `List Char`. -/

/-- `Char.toLower` mapped over a string, embedding Python `str.lower()`. -/
def lowerStr (s : List Char) : List Char := s.map Char.toLower

/-- `startsWith s pat` is true when `pat` is an initial segment of `s`. -/
def startsWith : List Char → List Char → Bool
  | _, [] => true
  | [], _ :: _ => false
  | c :: s, p :: ps => c == p && startsWith s ps

/-- `containsSub s pat`: Python `pat in s` (substring containment). -/
def containsSub : List Char → List Char → Bool
  | [], pat => startsWith [] pat
  | c :: s, pat => startsWith (c :: s) pat || containsSub s pat

/-- Helper for `wordsOf`: accumulates the current word (reversed). -/
def wordsAux : List Char → List Char → List (List Char)
  | [], acc => if acc.isEmpty then [] else [acc.reverse]
  | c :: cs, acc =>
    if c.isWhitespace then
      if acc.isEmpty then wordsAux cs [] else acc.reverse :: wordsAux cs []
    else wordsAux cs (c :: acc)

/-- Python `s.split()`: whitespace-separated words, empties dropped. -/
def wordsOf (s : List Char) : List (List Char) := wordsAux s []

/-- Python `s.strip()`: drop leading and trailing whitespace. -/
def stripStr (s : List Char) : List Char :=
  ((s.dropWhile Char.isWhitespace).reverse.dropWhile Char.isWhitespace).reverse

/-! ### Todo data model — `agent/todo.py`

Tasks are stored in Python as plain dicts with string-valued `status` and
`priority` fields (`Task.to_dict`), so both stay raw `String`s here.
`created_at`/`updated_at`/`completed_at` are ISO timestamps written from
`datetime.utcnow()`; they are embedded as `Nat` clock readings supplied
through an explicit `now` parameter. -/

structure Task where
  task_id : String
  content : String
  status : String := "pending"
  priority : String := "medium"
  parent_task_id : Option String := none
  created_at : Nat := 0
  updated_at : Nat := 0
  completed_at : Option Nat := none
  notes : String := ""
  dependencies : List String := []
  subtasks : List String := []
  result : Option String := none
deriving Repr, DecidableEq

structure TodoList where
  tasks : List Task
  active_task_id : Option String := none
  task_counter : Nat := 0
deriving Repr, DecidableEq

/-- `create_empty_todo_list` from `agent/todo.py`. -/
def create_empty_todo_list : TodoList :=
  { tasks := [], active_task_id := none, task_counter := 0 }

/-- `get_task` from `agent/todo.py`: first task with the given id. -/
def get_task (todo_list : TodoList) (task_id : String) : Option Task :=
  todo_list.tasks.find? (fun t => t.task_id == task_id)

/-- Update the first element satisfying `p` with `f`, returning the new
list and the updated element; embeds the `for … if …: mutate; return`
pattern used all over `agent/todo.py`. -/
def updateFirst (p : Task → Bool) (f : Task → Task) :
    List Task → List Task × Option Task
  | [] => ([], none)
  | x :: xs =>
    if p x then (f x :: xs, some (f x))
    else
      let r := updateFirst p f xs
      (x :: r.1, r.2)

/-- The in-place field writes of `update_task_status` before the
subtask check: set `status` and `updated_at`, and on `"completed"` also
`completed_at` and `result` (Python `result or ""`). -/
def applyStatus (status : String) (result : Option String) (now : Nat)
    (t : Task) : Task :=
  let t1 := { t with status := status, updated_at := now }
  if status == "completed" then
    { t1 with completed_at := some now, result := some (result.getD "") }
  else t1

/-- The `all_done` check of `update_task_status`: every task of the list
whose id occurs in `subtasks` has status `"completed"`. -/
def allSubtasksDone (tasks : List Task) (subtasks : List String) : Bool :=
  tasks.all (fun t => !(subtasks.contains t.task_id) || t.status == "completed")

/-- `update_task_status` from `agent/todo.py`.  Sets the new status (and
completion fields when the status is `"completed"`); then, when the
updated task itself has subtasks and all of them are completed, the
updated task is forced to `"completed"` with `completed_at := now`.
Returns the updated list and the updated task (`none` if the id is
unknown, embedding Python's `return None`). -/
def update_task_status (todo_list : TodoList) (task_id status : String)
    (result : Option String) (now : Nat) : TodoList × Option Task :=
  let step1 := updateFirst (fun t => t.task_id == task_id)
    (applyStatus status result now) todo_list.tasks
  match step1.2 with
  | none => (todo_list, none)
  | some t1 =>
    if !t1.subtasks.isEmpty && allSubtasksDone step1.1 t1.subtasks then
      let step2 := updateFirst (fun t => t.task_id == task_id)
        (fun t => { t with status := "completed", completed_at := some now })
        step1.1
      ({ todo_list with tasks := step2.1 }, step2.2)
    else ({ todo_list with tasks := step1.1 }, some t1)

/-- `set_active_task` from `agent/todo.py`: `none` clears, an unknown id
fails without mutating, a known id becomes the active task. -/
def set_active_task (todo_list : TodoList) (task_id : Option String) :
    TodoList × Bool :=
  match task_id with
  | none => ({ todo_list with active_task_id := none }, true)
  | some tid =>
    if todo_list.tasks.any (fun t => t.task_id == tid) then
      ({ todo_list with active_task_id := some tid }, true)
    else (todo_list, false)

/-- `Priority(value)` lookup into the order map of `get_pending_tasks`:
`none` embeds the `ValueError` raised on an invalid priority string. -/
def priorityRank? (p : String) : Option Nat :=
  if p == "critical" then some 0
  else if p == "high" then some 1
  else if p == "medium" then some 2
  else if p == "low" then some 3
  else none

/-- Sort rank of a task; only meaningful on valid priorities. -/
def taskRank (t : Task) : Nat := (priorityRank? t.priority).getD 3

/-- The sort key comparison of `get_pending_tasks`: by priority rank,
ties by `created_at` (creation time). -/
def taskLe (a b : Task) : Bool :=
  Nat.blt (taskRank a) (taskRank b) ||
    (taskRank a == taskRank b && Nat.ble a.created_at b.created_at)

/-- `get_pending_tasks` from `agent/todo.py`: pending tasks sorted by
`(priority, created_at)`.  `none` embeds the `ValueError` raised by
`Priority(t["priority"])` when a pending task has an invalid priority. -/
def get_pending_tasks (todo_list : TodoList) : Option (List Task) :=
  let pending := todo_list.tasks.filter (fun t => t.status == "pending")
  if pending.all (fun t => (priorityRank? t.priority).isSome) then
    some (pending.mergeSort taskLe)
  else none

/-- The per-task dependency check of `get_next_task`: a dependency id is
resolved when it references no present task or a completed one. -/
def depsResolved (todo_list : TodoList) (t : Task) : Bool :=
  t.dependencies.all (fun dep =>
    match get_task todo_list dep with
    | none => true
    | some d => d.status == "completed")

/-- `get_next_task` from `agent/todo.py`: first sorted pending task with
all dependencies resolved, else the first sorted pending task, else
`none`.  The outer `Option` embeds the propagated `ValueError` of
`get_pending_tasks`. -/
def get_next_task (todo_list : TodoList) : Option (Option Task) :=
  (get_pending_tasks todo_list).map (fun pending =>
    match pending.find? (depsResolved todo_list) with
    | some t => some t
    | none => pending.head?)

/-! ### Messages and agent state — `agent/state.py`

Langchain messages are embedded as one record with a role tag; fields
that a given role does not use keep their defaults (`hasattr(msg,
"tool_calls") and msg.tool_calls` is embedded as `tool_calls ≠ []`,
since only assistant messages ever carry a non-empty list). -/

inductive Role
  | system
  | human
  | ai
  | tool
deriving Repr, DecidableEq, BEq

structure ToolCall where
  id : String
  name : String
  args : String := ""
deriving Repr, DecidableEq

structure Usage where
  input_tokens : Nat
  output_tokens : Nat
deriving Repr, DecidableEq

structure Message where
  role : Role
  content : String
  tool_calls : List ToolCall := []
  tool_call_id : String := ""
  name : String := ""
  usage_metadata : Option Usage := none
  is_error : Bool := false
deriving Repr, DecidableEq

structure AgentState where
  messages : List Message
  model_calls : Nat := 0
  tool_calls : Nat := 0
  input_tokens : Nat := 0
  output_tokens : Nat := 0
  todo_list : Option TodoList := none
deriving Repr, DecidableEq

/-! ### Graph routing — `agent/graph.py` -/

inductive Route
  | tools
  | finish
deriving Repr, DecidableEq

/-- `should_continue` from `agent/graph.py`: route to `tools` exactly
when the last message carries tool calls.  `none` embeds the
`IndexError` of `state["messages"][-1]` on an empty history.  Note that
the function reads nothing but the last message — in particular neither
`model_calls` nor any configured ceiling. -/
def should_continue (state : AgentState) : Option Route :=
  state.messages.getLast?.map (fun m =>
    if !m.tool_calls.isEmpty then Route.tools else Route.finish)

/-! ### Model call — `agent/middleware/model_call.py`

The bound chat model is an injected external collaborator; it is
embedded as `invoke : Nat → Except String Message`, giving for each
attempt index either the provider error raised by `llm.ainvoke` or the
response message (with optional usage metadata attached). -/

structure ModelPatch where
  messages : List Message
  model_calls : Nat
  input_tokens : Nat
  output_tokens : Nat
deriving Repr, DecidableEq

/-- The fixed fallback assistant message of `ModelCallMiddleware`. -/
def fallbackMessage : Message :=
  { role := Role.ai, content := "Technical difficulties. Please try again." }

/-- The retry loop of `ModelCallMiddleware.__call__`, one constructor
per remaining iteration of `for attempt in range(max_retries)`.  On
success the response is returned with usage read from metadata (0 when
absent); on the final attempt's failure the fallback patch is returned;
otherwise the next attempt runs (the backoff sleep has no effect on the
returned patch and is not modelled).  `none` embeds Python's implicit
`return None` when the loop body never runs. -/
def modelCallAttempts (invoke : Nat → Except String Message)
    (calls_so_far : Nat) : Nat → Nat → Option ModelPatch
  | _, 0 => none
  | attempt, remaining + 1 =>
    match invoke attempt with
    | Except.ok response =>
      some { messages := [response],
             model_calls := calls_so_far + 1,
             input_tokens := (response.usage_metadata.map Usage.input_tokens).getD 0,
             output_tokens := (response.usage_metadata.map Usage.output_tokens).getD 0 }
    | Except.error _ =>
      if remaining == 0 then
        some { messages := [fallbackMessage],
               model_calls := calls_so_far + 1,
               input_tokens := 0,
               output_tokens := 0 }
      else modelCallAttempts invoke calls_so_far (attempt + 1) remaining

/-- `ModelCallMiddleware.__call__` from `agent/middleware/model_call.py`
restricted to its retry/fallback/accounting behaviour (prompt injection
and tool binding only shape the injected `invoke`). -/
def model_call (max_retries : Nat) (invoke : Nat → Except String Message)
    (state : AgentState) : Option ModelPatch :=
  modelCallAttempts invoke state.model_calls 0 max_retries

/-! ### Tool execution — `agent/middleware/tools.py` -/

/-- Modelled from the spec: `langgraph.prebuilt.ToolNode.ainvoke`, the
external superclass dispatch that `ToolNodeWithMiddleware.ainvoke`
delegates to and which is not part of this repository's sources.  Per
§4.6: "Each requested call is invoked independently; a per-call fault is
caught and converted into a tool-result message tagged with the call id,
tool name, and error text — one failing call never prevents the others
from returning results, and result-message order must match the order of
the originating requests."  Each tool is an injected collaborator
`runTool : ToolCall → Except String String`. -/
def toolNodeRun (runTool : ToolCall → Except String String)
    (calls : List ToolCall) : List Message :=
  calls.map (fun tc =>
    match runTool tc with
    | Except.ok r =>
      { role := Role.tool, content := r, tool_call_id := tc.id,
        name := tc.name, is_error := false }
    | Except.error e =>
      { role := Role.tool, content := "Error: " ++ e, tool_call_id := tc.id,
        name := tc.name, is_error := true })

inductive ToolsOutcome
  | passthrough (state : AgentState)
  | patch (messages : List Message) (tool_calls : Nat)
deriving Repr, DecidableEq

/-- `ToolNodeWithMiddleware.ainvoke` from `agent/middleware/tools.py`:
pass the state through unchanged when the last message carries no tool
calls, otherwise run the inherited dispatch and add the executed batch
size to the `tool_calls` counter.  (The `except` branch of the source
fires only when the inherited dispatch itself raises as a whole, which
the per-call contract above rules out, so it has no image here.)
`none` embeds the `IndexError` on an empty message history. -/
def tool_node_ainvoke (runTool : ToolCall → Except String String)
    (state : AgentState) : Option ToolsOutcome :=
  state.messages.getLast?.map (fun last =>
    if last.tool_calls.isEmpty then ToolsOutcome.passthrough state
    else ToolsOutcome.patch (toolNodeRun runTool last.tool_calls)
      (state.tool_calls + last.tool_calls.length))

/-! ### Complexity detection — `agent/middleware/todo.py`,
`TaskComplexityDetector` -/

inductive ComplexityApproach
  | llm
  | heuristic
  | auto
deriving Repr, DecidableEq

structure TaskBreakdownItem where
  content : String
  priority : String := "medium"
deriving Repr, DecidableEq

structure TaskComplexityResult where
  needs_todo_list : Bool
  reasoning : String
  suggested_tasks : List TaskBreakdownItem := []
  active_task_id : Option String := none
deriving Repr, DecidableEq

/-- `TaskComplexityDetector.COMPLEXITY_KEYWORDS`. -/
def COMPLEXITY_KEYWORDS : List String :=
  ["create", "build", "develop", "implement", "design",
   "set up", "configure", "deploy", "migrate", "refactor",
   "write tests", "add feature", "fix bug", "optimize",
   "multiple", "several", "various", "different",
   "step by step", "break down", "plan", "project"]

/-- The word count of `_heuristic_analysis`:
`len(request_lower.split())`. -/
def heuristicWordCount (user_request : String) : Nat :=
  (wordsOf (lowerStr user_request.data)).length

/-- The keyword count of `_heuristic_analysis`: how many complexity
keywords occur in the lowercased request. -/
def heuristicKeywordMatches (user_request : String) : Nat :=
  (COMPLEXITY_KEYWORDS.filter
    (fun kw => containsSub (lowerStr user_request.data) kw.data)).length

/-- The task text synthesized by `_heuristic_analysis`: the stripped
request truncated to 150 characters, with `"..."` appended when the raw
request is longer than 150 characters. -/
def heuristicTaskContent (user_request : String) : String :=
  let base := String.mk ((stripStr user_request.data).take 150)
  if Nat.blt 150 user_request.data.length then base ++ "..." else base

/-- `TaskComplexityDetector._heuristic_analysis`. -/
def heuristic_analysis (user_request : String) : TaskComplexityResult :=
  let word_count := heuristicWordCount user_request
  let keyword_matches := heuristicKeywordMatches user_request
  if Nat.ble 30 word_count || Nat.ble 2 keyword_matches then
    { needs_todo_list := true,
      reasoning := "Heuristic: word and keyword counts",
      suggested_tasks := [
        { content := heuristicTaskContent user_request,
          priority := if Nat.ble 2 keyword_matches then "high" else "medium" }] }
  else
    { needs_todo_list := false,
      reasoning := "Not complex enough",
      suggested_tasks := [] }

/-- `TaskComplexityDetector.analyze`.  The model-assisted path is the
injected external LLM; its outcome is a parameter:
`Except.error e` embeds `_llm_analysis` raising, `Except.ok none` its
parse failure, `Except.ok (some r)` a parsed result.
`existing_todo_count` is a Python `int`, so `Int` here. -/
def detector_analyze (approach : ComplexityApproach)
    (llmOutcome : Except String (Option TaskComplexityResult))
    (user_request : String) (existing_todo_count : Int) :
    TaskComplexityResult :=
  if 0 < existing_todo_count then
    { needs_todo_list := false,
      reasoning := "Todo list already exists",
      suggested_tasks := [] }
  else
    match approach with
    | ComplexityApproach.heuristic => heuristic_analysis user_request
    | ComplexityApproach.llm =>
      match llmOutcome with
      | Except.ok (some r) => r
      | Except.ok none =>
        { needs_todo_list := false,
          reasoning := "LLM analysis failed",
          suggested_tasks := [] }
      | Except.error _ =>
        { needs_todo_list := false,
          reasoning := "LLM error",
          suggested_tasks := [] }
    | ComplexityApproach.auto =>
      match llmOutcome with
      | Except.ok (some r) => r
      | Except.ok none => heuristic_analysis user_request
      | Except.error _ => heuristic_analysis user_request

/-! ### Progress analysis — `agent/middleware/todo.py`,
`TodoProgressAnalyzer` -/

structure TodoProgressResult where
  completed_task_id : Option String := none
  should_replan : Bool := false
  next_task_id : Option String := none
  reasoning : String := ""
deriving Repr, DecidableEq

/-- `_heuristic_analyze`'s completion indicator keywords. -/
def completion_indicators : List String :=
  ["completed", "done", "success", "created", "implemented",
   "finished", "ready", "deployed", "updated", "fixed"]

/-- `_heuristic_analyze`'s failure indicator keywords. -/
def failure_indicators : List String :=
  ["error", "failed", "exception", "cannot", "unable",
   "permission denied", "not found", "invalid"]

/-- Whether any completion indicator occurs in the lowercased result. -/
def hasCompletionIndicator (tool_result : String) : Bool :=
  completion_indicators.any
    (fun kw => containsSub (lowerStr tool_result.data) kw.data)

/-- Whether any failure indicator occurs in the lowercased result. -/
def hasFailureIndicator (tool_result : String) : Bool :=
  failure_indicators.any
    (fun kw => containsSub (lowerStr tool_result.data) kw.data)

/-- `TodoProgressAnalyzer._heuristic_analyze`: the failure branch is
tested first and returns a replan request with the active task kept;
only otherwise does a completion indicator complete the active task;
with neither, the active task is kept and nothing else is set. -/
def heuristic_analyze (active_task : Task) (tool_result : String) :
    TodoProgressResult :=
  if hasFailureIndicator tool_result then
    { should_replan := true,
      next_task_id := some active_task.task_id,
      reasoning := "Tool execution had errors, may need to retry or re-plan" }
  else if hasCompletionIndicator tool_result then
    { completed_task_id := some active_task.task_id,
      should_replan := false,
      reasoning := "Tool result indicates task completion" }
  else
    { should_replan := false,
      next_task_id := some active_task.task_id,
      reasoning := "No clear completion indicator, continuing with current task" }

/-- `TodoProgressAnalyzer.analyze`.  The LLM outcome is injected as in
`detector_analyze`; both a raising and an unparseable LLM call fall back
to `heuristic_analyze` (the source catches them).  The overall
`Except` embeds the faults `analyze` itself does NOT catch: the
`ValueError` that `get_next_task` raises on an invalid pending
priority. -/
def analyzer_analyze (llmOutcome : Except String (Option TodoProgressResult))
    (todo_list : TodoList) (tool_result : String) :
    Except String TodoProgressResult :=
  if todo_list.tasks.isEmpty then
    Except.ok { should_replan := false, reasoning := "No todo list exists" }
  else
    match todo_list.active_task_id with
    | none =>
      match get_next_task todo_list with
      | none => Except.error "ValueError: invalid priority"
      | some (some next_task) =>
        Except.ok { next_task_id := some next_task.task_id,
                    reasoning := "No active task, selecting next pending task" }
      | some none =>
        Except.ok { completed_task_id := none, should_replan := false,
                    next_task_id := none, reasoning := "All tasks completed" }
    | some active_task_id =>
      match get_task todo_list active_task_id with
      | none =>
        Except.ok { should_replan := true,
                    reasoning := "Active task not found in todo list" }
      | some active_task =>
        match llmOutcome with
        | Except.ok (some r) => Except.ok r
        | _ => Except.ok (heuristic_analyze active_task tool_result)

/-! ### Middleware execution — `agent/middleware/base.py` and the
`TodoProgressMiddleware.__call__` node — `agent/middleware/todo.py` -/

/-- The partial-state patch assembled by `TodoProgressMiddleware`. -/
structure ProgressUpdates where
  todo_list : Option TodoList := none
  needs_todo_replan : Option Bool := none
deriving Repr, DecidableEq

/-- How a node invocation ends: a patch, or the `_middleware_error`
patch that `BaseMiddleware.__call__` substitutes for a caught fault. -/
inductive HookOutcome
  | patch (p : ProgressUpdates)
  | errorPatch (middleware : String) (err : String)
deriving Repr, DecidableEq

/-- `BaseMiddleware.__call__` from `agent/middleware/base.py`: run the
`before_model` hook, replace a `None` result by the empty patch, and
convert any raised fault into the non-fatal `_middleware_error`
patch.  The hook is arbitrary injected code, so it is a parameter that
may fault. -/
def base_middleware_call (name : String)
    (before_model : AgentState → Except String (Option ProgressUpdates))
    (state : AgentState) : HookOutcome :=
  match before_model state with
  | Except.ok (some p) => HookOutcome.patch p
  | Except.ok none => HookOutcome.patch {}
  | Except.error e => HookOutcome.errorPatch name e

/-- `TodoProgressMiddleware._get_last_tool_execution`: the latest tool
message's name and content, else the first tool call of a tool-calling
last message with the placeholder text, else nothing. -/
def get_last_tool_execution (state : AgentState) : Option (String × String) :=
  match state.messages.reverse.find? (fun m => m.role == Role.tool) with
  | some m => some (m.name, m.content)
  | none =>
    match state.messages.getLast? with
    | some last =>
      if !last.tool_calls.isEmpty then
        some (((last.tool_calls.head?).map ToolCall.name).getD "unknown",
              "Tool was called")
      else none
    | none => none

/-- `TodoProgressMiddleware._get_last_user_message`: content of the
latest human message. -/
def get_last_user_message (messages : List Message) : Option String :=
  (messages.reverse.find? (fun m => m.role == Role.human)).map Message.content

/-- The update assembly of `TodoProgressMiddleware.__call__` (lines
850–879): complete the reported task, clear the active task and raise
the replan flag on `should_replan`, then set the reported next task. -/
def progressBuildUpdates (todo_list : TodoList) (r : TodoProgressResult)
    (now : Nat) : ProgressUpdates :=
  let step1 :=
    match r.completed_task_id with
    | some cid => ((update_task_status todo_list cid "completed" none now).1, true)
    | none => (todo_list, false)
  let step2 :=
    if r.should_replan then ((set_active_task step1.1 none).1, true)
    else (step1.1, false)
  let step3 :=
    match r.next_task_id with
    | some nid => ((set_active_task step2.1 (some nid)).1, true)
    | none => (step2.1, false)
  { todo_list :=
      if step1.2 || step2.2 || step3.2 then some step3.1 else none,
    needs_todo_replan := if step2.2 then some true else none }

/-- `TodoProgressMiddleware.__call__` from `agent/middleware/todo.py`.
The progress analyzer is injected through the constructor
(`progress_analyzer` parameter), so it is a function parameter that may
fault.  Unlike `base_middleware_call`, the override wraps nothing: the
analyzer is awaited with no `try`, so its fault propagates out of the
node (the `Except.error` case). -/
def todo_progress_call (enabled : Bool)
    (analyze : TodoList → String → String → Except String TodoProgressResult)
    (state : AgentState) (now : Nat) : Except String ProgressUpdates :=
  if !enabled then Except.ok {}
  else
    match state.todo_list with
    | none => Except.ok {}
    | some todo_list =>
      if todo_list.tasks.isEmpty then Except.ok {}
      else
        match get_last_tool_execution state with
        | none => Except.ok {}
        | some info =>
          let last_user := (get_last_user_message state.messages).getD ""
          match analyze todo_list info.2 last_user with
          | Except.error e => Except.error e
          | Except.ok r => Except.ok (progressBuildUpdates todo_list r now)

/-! ### Concrete instances used by counterexamples and witnesses -/

/-- An adversarial cycle end: the model has answered once
(`model_calls = 1`) and the emitted assistant message again requests a
tool call.  Under `max_model_calls = 1` the claim demands routing to
completion-check here. -/
def c1_state : AgentState :=
  { messages := [{ role := Role.ai, content := "",
                   tool_calls := [{ id := "call-1", name := "search" }] }],
    model_calls := 1 }

/-- Concrete always-failing model for the C3 witness. -/
def c3_invoke : Nat → Except String Message :=
  fun _ => Except.error "provider failure"

/-- Concrete state for the C3 witness. -/
def c3_state : AgentState := { messages := [], model_calls := 4 }

/-- Three concrete tool calls for the C4 witness. -/
def c4_calls : List ToolCall :=
  [{ id := "1", name := "t1" }, { id := "2", name := "t2" },
   { id := "3", name := "t3" }]

/-- Concrete assistant message carrying the C4 batch. -/
def c4_last : Message := { role := Role.ai, content := "", tool_calls := c4_calls }

/-- Concrete state for the C4 witness. -/
def c4_state : AgentState := { messages := [c4_last], tool_calls := 4 }

/-- Concrete tool behaviour for the C4 witness: only the 2nd call
raises. -/
def c4_run : ToolCall → Except String String :=
  fun tc => if tc.id == "2" then Except.error "crash" else Except.ok ("ok-" ++ tc.id)

/-- Concrete active task for the C7 witness. -/
def c7_task : Task := { task_id := "t-42", content := "deploy the site" }

/-- Concrete tool result for the C7 witness, carrying both a completion
indicator ("completed") and a failure indicator ("error"). -/
def c7_result : String := "Task completed, but an ERROR occurred while saving"

/-- Concrete list for the C9 witness. -/
def c9_list : TodoList :=
  { tasks := [{ task_id := "a", content := "only task" }],
    active_task_id := some "a", task_counter := 1 }

/-- An injected progress analyzer whose `analyze` raises — arbitrary
injected code is allowed to fault, and the framework claims to isolate
it. -/
def c5_failing_analyzer : TodoList → String → String →
    Except String TodoProgressResult :=
  fun _ _ _ => Except.error "analyzer crashed"

/-- A state on which `TodoProgressMiddleware.__call__` reaches its
analyzer: a non-empty todo list and a tool-result message. -/
def c5_state : AgentState :=
  { messages := [{ role := Role.tool, content := "wrote file",
                   name := "write_file", tool_call_id := "1" }],
    todo_list := some { tasks := [{ task_id := "t1", content := "write the file" }],
                        active_task_id := some "t1", task_counter := 1 } }

/-- A parent with a single not-yet-completed subtask, both pending. -/
def c2_list : TodoList :=
  { tasks := [{ task_id := "p", content := "parent", subtasks := ["s"] },
              { task_id := "s", content := "sub", parent_task_id := some "p" }],
    active_task_id := none, task_counter := 2 }

/-- A parent whose only subtask is already completed, for the C10
witness. -/
def c10_list : TodoList :=
  { tasks := [{ task_id := "p", content := "parent", subtasks := ["s"] },
              { task_id := "s", content := "sub", status := "completed",
                parent_task_id := some "p" }],
    active_task_id := none, task_counter := 2 }

/-- Concrete list for the C6 witness: `"b"` is critical with a dangling
dependency (treated as resolved), `"c"` is critical but depends on the
pending low-priority task `"a"`. -/
def c6_list : TodoList :=
  { tasks := [{ task_id := "a", content := "a", priority := "low", created_at := 1 },
              { task_id := "b", content := "b", priority := "critical",
                created_at := 2, dependencies := ["zz"] },
              { task_id := "c", content := "c", priority := "critical",
                created_at := 3, dependencies := ["a"] }],
    active_task_id := none, task_counter := 3 }

/-! ## Theorems -/

/-! ### C1 — post-model routing and the model-call ceiling -/

/-- C1: the post-model routing function routes on the tool-call presence
alone.  At the failing input (one completed model cycle,
`max_model_calls = 1`, assistant message carrying a tool call) it still
routes to `tools`, and it is invariant under the `model_calls` counter
altogether — the code never compares `model_calls` against
`max_model_calls`, so the loop is not bounded by the configured
ceiling. -/
theorem should_continue_ignores_model_call_ceiling :
    should_continue c1_state = some Route.tools ∧
    ∀ (s : AgentState) (n : Nat),
      should_continue { s with model_calls := n } = should_continue s := by
  exact ⟨rfl, fun s n => rfl⟩

/-! ### C3 — model call retry exhaustion -/

/-- Helper for C3: when every attempt fails, the retry loop with at
least one remaining iteration ends in the fallback patch. -/
theorem modelCallAttempts_all_fail (invoke : Nat → Except String Message)
    (hfail : ∀ i, ∃ e, invoke i = Except.error e) :
    ∀ (remaining attempt calls_so_far : Nat), 0 < remaining →
      modelCallAttempts invoke calls_so_far attempt remaining =
        some { messages := [fallbackMessage],
               model_calls := calls_so_far + 1,
               input_tokens := 0, output_tokens := 0 } := by
  intro remaining
  induction remaining with
  | zero => intro _ _ h; omega
  | succ r ih =>
    intro attempt calls_so_far _
    obtain ⟨e, he⟩ := hfail attempt
    cases r with
    | zero => simp [modelCallAttempts, he]
    | succ r2 =>
      have h2 := ih (attempt + 1) calls_so_far (Nat.succ_pos r2)
      simp only [modelCallAttempts] at h2
      simp only [modelCallAttempts, he]
      simpa using h2

/-- C3: with any positive retry budget and a model failing on every
attempt, the model-call step returns a patch (never a propagated fault)
holding exactly the one fallback assistant message, `model_calls`
incremented by exactly 1, and both token counts 0. -/
theorem model_call_all_fail_fallback (state : AgentState) (max_retries : Nat)
    (invoke : Nat → Except String Message) (hpos : 0 < max_retries)
    (hfail : ∀ i, ∃ e, invoke i = Except.error e) :
    model_call max_retries invoke state =
      some { messages := [fallbackMessage],
             model_calls := state.model_calls + 1,
             input_tokens := 0, output_tokens := 0 } :=
  modelCallAttempts_all_fail invoke hfail max_retries 0 state.model_calls hpos

/-- C3 witness: the theorem applied at `max_retries = 3` and a model
erroring on every attempt. -/
theorem model_call_all_fail_fallback_witness :
    model_call 3 c3_invoke c3_state =
      some { messages := [fallbackMessage], model_calls := 5,
             input_tokens := 0, output_tokens := 0 } :=
  model_call_all_fail_fallback c3_state 3 c3_invoke (by decide)
    (fun _ => ⟨"provider failure", rfl⟩)

/-! ### C4 — per-call tool fault isolation -/

/-- C4: when the last message carries a non-empty batch of tool calls,
the executor returns a patch with exactly one tool-result message per
request; the i-th message is tagged with the i-th request's call id and
tool name, is marked as an error exactly when that call's tool raised,
and carries the tool's own result whenever it succeeded — so a single
raising call leaves every other call's result unaffected and the order
matches the request order. -/
theorem tool_node_per_call_isolation
    (runTool : ToolCall → Except String String) (state : AgentState)
    (last : Message) (hlast : state.messages.getLast? = some last)
    (hne : last.tool_calls ≠ []) :
    ∃ msgs, tool_node_ainvoke runTool state =
        some (ToolsOutcome.patch msgs (state.tool_calls + last.tool_calls.length)) ∧
      msgs.length = last.tool_calls.length ∧
      ∀ (i : Nat) (hi : i < last.tool_calls.length) (hm : i < msgs.length),
        (msgs.get ⟨i, hm⟩).tool_call_id = (last.tool_calls.get ⟨i, hi⟩).id ∧
        (msgs.get ⟨i, hm⟩).name = (last.tool_calls.get ⟨i, hi⟩).name ∧
        ((msgs.get ⟨i, hm⟩).is_error = true ↔
          ∃ e, runTool (last.tool_calls.get ⟨i, hi⟩) = Except.error e) ∧
        (∀ r, runTool (last.tool_calls.get ⟨i, hi⟩) = Except.ok r →
          (msgs.get ⟨i, hm⟩).content = r) := by
  refine ⟨toolNodeRun runTool last.tool_calls, ?_, ?_, ?_⟩
  · simp [tool_node_ainvoke, hlast, List.isEmpty_iff, hne]
  · simp [toolNodeRun]
  · intro i hi hm
    simp only [toolNodeRun, List.get_eq_getElem, List.getElem_map]
    cases hr : runTool last.tool_calls[i] with
    | ok r => simp
    | error e => simp

/-- C4 witness: the theorem applied to a 3-call batch whose 2nd call
raises. -/
theorem tool_node_per_call_isolation_witness :
    ∃ msgs, tool_node_ainvoke c4_run c4_state =
        some (ToolsOutcome.patch msgs (c4_state.tool_calls + c4_last.tool_calls.length)) ∧
      msgs.length = c4_last.tool_calls.length ∧
      ∀ (i : Nat) (hi : i < c4_last.tool_calls.length) (hm : i < msgs.length),
        (msgs.get ⟨i, hm⟩).tool_call_id = (c4_last.tool_calls.get ⟨i, hi⟩).id ∧
        (msgs.get ⟨i, hm⟩).name = (c4_last.tool_calls.get ⟨i, hi⟩).name ∧
        ((msgs.get ⟨i, hm⟩).is_error = true ↔
          ∃ e, c4_run (c4_last.tool_calls.get ⟨i, hi⟩) = Except.error e) ∧
        (∀ r, c4_run (c4_last.tool_calls.get ⟨i, hi⟩) = Except.ok r →
          (msgs.get ⟨i, hm⟩).content = r) :=
  tool_node_per_call_isolation c4_run c4_state c4_last rfl (by decide)

/-! ### C8 — complexity detection short-circuit on existing tasks -/

/-- C8: with a strictly positive existing task count the detector
short-circuits to `needs_todo_list = false` with no suggested tasks, for
every request, every LLM outcome, and every configured approach. -/
theorem detector_analyze_short_circuit (approach : ComplexityApproach)
    (llmOutcome : Except String (Option TaskComplexityResult))
    (user_request : String) (existing_todo_count : Int)
    (hpos : 0 < existing_todo_count) :
    detector_analyze approach llmOutcome user_request existing_todo_count =
      { needs_todo_list := false,
        reasoning := "Todo list already exists",
        suggested_tasks := [] } := by
  unfold detector_analyze
  rw [if_pos hpos]

/-- C8 witness: the theorem applied at `existing_todo_count = 1`, auto
approach, a failed LLM parse, and a heavily keyword-laden request
(which the heuristic would otherwise accept). -/
theorem detector_analyze_short_circuit_witness :
    detector_analyze ComplexityApproach.auto (Except.ok none)
        "build and deploy several things step by step" 1 =
      { needs_todo_list := false,
        reasoning := "Todo list already exists",
        suggested_tasks := [] } :=
  detector_analyze_short_circuit ComplexityApproach.auto (Except.ok none)
    "build and deploy several things step by step" 1 (by decide)

/-! ### C7 — heuristic progress evaluation branch order -/

/-- C7: failure indicators are checked first and win: whenever one
occurs (even alongside completion indicators) the result requests a
replan with no completed task and the active task kept; only otherwise
does a completion indicator complete the active task; with neither
indicator nothing is completed and no replan is requested. -/
theorem heuristic_analyze_branches (active_task : Task) (tool_result : String) :
    (hasFailureIndicator tool_result = true →
      heuristic_analyze active_task tool_result =
        { completed_task_id := none, should_replan := true,
          next_task_id := some active_task.task_id,
          reasoning := "Tool execution had errors, may need to retry or re-plan" }) ∧
    (hasFailureIndicator tool_result = false →
      hasCompletionIndicator tool_result = true →
      heuristic_analyze active_task tool_result =
        { completed_task_id := some active_task.task_id, should_replan := false,
          next_task_id := none,
          reasoning := "Tool result indicates task completion" }) ∧
    (hasFailureIndicator tool_result = false →
      hasCompletionIndicator tool_result = false →
      heuristic_analyze active_task tool_result =
        { completed_task_id := none, should_replan := false,
          next_task_id := some active_task.task_id,
          reasoning := "No clear completion indicator, continuing with current task" }) := by
  refine ⟨fun hf => ?_, fun hf hc => ?_, fun hf hc => ?_⟩
  · simp [heuristic_analyze, hf]
  · simp [heuristic_analyze, hf, hc]
  · simp [heuristic_analyze, hf, hc]

/-- C7 witness: on a result containing both indicator kinds, the
failure branch wins — replan requested, nothing completed, active task
kept. -/
theorem heuristic_analyze_branches_witness :
    hasFailureIndicator c7_result = true ∧
    hasCompletionIndicator c7_result = true ∧
    heuristic_analyze c7_task c7_result =
      { completed_task_id := none, should_replan := true,
        next_task_id := some "t-42",
        reasoning := "Tool execution had errors, may need to retry or re-plan" } :=
  ⟨by decide, by decide,
    (heuristic_analyze_branches c7_task c7_result).1 (by decide)⟩

/-! ### C9 — set_active on unknown, null, and known ids -/

/-- C9: an id no task carries makes `set_active_task` return `false`
and leave the list (hence `active_task_id`) unchanged; a null id clears
the active task and returns `true`; a present id becomes the active
task with `true`. -/
theorem set_active_task_characterization (todo_list : TodoList) (tid : String) :
    ((∀ t ∈ todo_list.tasks, t.task_id ≠ tid) →
      set_active_task todo_list (some tid) = (todo_list, false)) ∧
    (set_active_task todo_list none =
      ({ todo_list with active_task_id := none }, true)) ∧
    ((∃ t ∈ todo_list.tasks, t.task_id = tid) →
      set_active_task todo_list (some tid) =
        ({ todo_list with active_task_id := some tid }, true)) := by
  refine ⟨fun hno => ?_, rfl, fun hyes => ?_⟩
  · have h : todo_list.tasks.any (fun t => t.task_id == tid) = false := by
      simp only [List.any_eq_false, beq_iff_eq]
      exact hno
    simp [set_active_task, h]
  · have h : todo_list.tasks.any (fun t => t.task_id == tid) = true := by
      simp only [List.any_eq_true, beq_iff_eq]
      exact hyes
    simp [set_active_task, h]

/-- C9 witness: the theorem applied at an unknown id `"zz"`, showing
`false` with the list — in particular `active_task_id` — unchanged. -/
theorem set_active_task_characterization_witness :
    set_active_task c9_list (some "zz") = (c9_list, false) :=
  (set_active_task_characterization c9_list "zz").1 (by decide)

/-! ### C5 — middleware hook fault isolation -/

/-- C5: hook fault isolation holds for the default execution path but
not for the node-style override.  `BaseMiddleware.__call__` converts
every hook fault into the non-fatal `_middleware_error` patch, yet
`TodoProgressMiddleware.__call__` overrides that wrapper with no
`try`/`except`: at the failing input its injected analyzer's fault
propagates out of the hook unchanged, aborting the turn. -/
theorem todo_progress_call_propagates_fault :
    todo_progress_call true c5_failing_analyzer c5_state 0 =
      Except.error "analyzer crashed" ∧
    ∀ (s : AgentState) (e : String),
      base_middleware_call "TodoProgress" (fun _ => Except.error e) s =
        HookOutcome.errorPatch "TodoProgress" e := by
  exact ⟨rfl, fun s e => rfl⟩

/-! ### updateFirst lemmas shared by the task-status claims -/

/-- Searching with a predicate that neither the matched element nor its
update satisfies is unchanged by `updateFirst`. -/
theorem updateFirst_find?_disjoint (p q : Task → Bool) (f : Task → Task)
    (hdisj : ∀ t, p t = true → q (f t) = false ∧ q t = false) :
    ∀ l : List Task,
      ((updateFirst p f l).1).find? q = l.find? q := by
  intro l
  induction l with
  | nil => rfl
  | cons x xs ih =>
    by_cases hx : p x = true
    · obtain ⟨h1, h2⟩ := hdisj x hx
      simp [updateFirst, hx, List.find?, h1, h2]
    · have hxb : p x = false := by simpa using hx
      cases hq : q x with
      | true => simp [updateFirst, hxb, List.find?, hq]
      | false => simp [updateFirst, hxb, List.find?, hq, ih]

/-- When the update preserves the search predicate, both the returned
element and a fresh search give the updated first match. -/
theorem updateFirst_find?_self (p : Task → Bool) (f : Task → Task)
    (hpres : ∀ t, p t = true → p (f t) = true) :
    ∀ l : List Task,
      (updateFirst p f l).2 = (l.find? p).map f ∧
      ((updateFirst p f l).1).find? p = (l.find? p).map f := by
  intro l
  induction l with
  | nil => exact ⟨rfl, rfl⟩
  | cons x xs ih =>
    by_cases hx : p x = true
    · constructor
      · simp [updateFirst, hx, List.find?]
      · simp [updateFirst, hx, List.find?, hpres x hx]
    · have hxb : p x = false := by simpa using hx
      constructor
      · simp [updateFirst, hxb, List.find?, ih.1]
      · simp [updateFirst, hxb, List.find?, ih.2]

/-- Every element of an `updateFirst` result is either an original
element or the update of a matched original element. -/
theorem mem_updateFirst (p : Task → Bool) (f : Task → Task) :
    ∀ (l : List Task) (u : Task), u ∈ (updateFirst p f l).1 →
      u ∈ l ∨ ∃ v ∈ l, p v = true ∧ u = f v := by
  intro l
  induction l with
  | nil => intro u hu; simp [updateFirst] at hu
  | cons x xs ih =>
    intro u hu
    by_cases hx : p x = true
    · simp only [updateFirst, hx, if_pos] at hu
      rcases List.mem_cons.mp hu with h | h
      · exact Or.inr ⟨x, List.mem_cons_self x xs, hx, h⟩
      · exact Or.inl (List.mem_cons_of_mem x h)
    · have hxb : p x = false := by simpa using hx
      simp only [updateFirst, hxb, Bool.false_eq_true, if_false] at hu
      rcases List.mem_cons.mp hu with h | h
      · exact Or.inl (h ▸ List.mem_cons_self x xs)
      · rcases ih u h with h2 | ⟨v, hv, hpv, hvu⟩
        · exact Or.inl (List.mem_cons_of_mem x h2)
        · exact Or.inr ⟨v, List.mem_cons_of_mem x hv, hpv, hvu⟩

/-- `updateFirst` is the identity when the update fixes the first
match. -/
theorem updateFirst_fix (p : Task → Bool) (f : Task → Task) :
    ∀ (l : List Task) (x : Task), l.find? p = some x → f x = x →
      updateFirst p f l = (l, some x) := by
  intro l
  induction l with
  | nil => intro x hx; simp at hx
  | cons a as ih =>
    intro x hx hfx
    by_cases ha : p a = true
    · have hax : a = x := by simpa [List.find?, ha] using hx
      subst hax
      simp [updateFirst, ha, hfx]
    · have hab : p a = false := by simpa using ha
      have hx2 : as.find? p = some x := by simpa [List.find?, hab] using hx
      simp [updateFirst, hab, ih x hx2 hfx]

/-- `applyStatus` never changes the task id. -/
theorem applyStatus_task_id (s : String) (r : Option String) (n : Nat)
    (t : Task) : (applyStatus s r n t).task_id = t.task_id := by
  simp only [applyStatus]
  split <;> rfl

/-- `applyStatus` never changes the subtask list. -/
theorem applyStatus_subtasks (s : String) (r : Option String) (n : Nat)
    (t : Task) : (applyStatus s r n t).subtasks = t.subtasks := by
  simp only [applyStatus]
  split <;> rfl

/-- `applyStatus` at status `"completed"`, computed. -/
theorem applyStatus_completed (r : Option String) (n : Nat) (t : Task) :
    applyStatus "completed" r n t =
      { t with status := "completed", updated_at := n,
               completed_at := some n, result := some (r.getD "") } := by
  simp [applyStatus]

/-! ### C2 — completing the last subtask and the parent's status -/

/-- C2 counterexample: completing the parent's only (hence last)
not-yet-completed subtask leaves the parent's status `"pending"` — the
parent is NOT marked completed, refuting the claim at this input.  The
auto-completion check of `update_task_status` looks only at the updated
task's own subtasks, and the updated subtask has none. -/
theorem update_subtask_does_not_complete_parent :
    ((get_task (update_task_status c2_list "s" "completed" none 5).1 "p").map
        Task.status) = some "pending" ∧
    some "pending" ≠ some "completed" := by
  exact ⟨rfl, by decide⟩

/-- C2 amended: completing the last not-yet-completed subtask completes
that subtask (status `"completed"`, completed-at set) but leaves every
other task — in particular the parent — entirely unchanged; and with an
unchanged clock reading the completing update is idempotent: repeating
it returns the identical list and task. -/
theorem update_subtask_completes_only_subtask
    (tl : TodoList) (sid : String) (sub : Task) (now : Nat)
    (hfind : get_task tl sid = some sub) (hnosub : sub.subtasks = []) :
    (∀ pid, pid ≠ sid →
      get_task (update_task_status tl sid "completed" none now).1 pid =
        get_task tl pid) ∧
    ((get_task (update_task_status tl sid "completed" none now).1 sid).map
        Task.status = some "completed") ∧
    ((get_task (update_task_status tl sid "completed" none now).1 sid).bind
        Task.completed_at = some now) ∧
    update_task_status (update_task_status tl sid "completed" none now).1
        sid "completed" none now =
      update_task_status tl sid "completed" none now := by
  have hpres : ∀ t : Task, (t.task_id == sid) = true →
      ((applyStatus "completed" none now t).task_id == sid) = true := by
    intro t ht
    rw [applyStatus_task_id]
    exact ht
  have hself := updateFirst_find?_self (fun t => t.task_id == sid)
    (applyStatus "completed" none now) hpres tl.tasks
  have hfind2 : tl.tasks.find? (fun t => t.task_id == sid) = some sub := hfind
  have hsnd : (updateFirst (fun t => t.task_id == sid)
      (applyStatus "completed" none now) tl.tasks).2 =
      some (applyStatus "completed" none now sub) := by
    rw [hself.1, hfind2]
    rfl
  have hsubs : (applyStatus "completed" none now sub).subtasks = [] := by
    rw [applyStatus_subtasks]
    exact hnosub
  have hmain : update_task_status tl sid "completed" none now =
      ({ tl with tasks := (updateFirst (fun t => t.task_id == sid)
          (applyStatus "completed" none now) tl.tasks).1 },
       some (applyStatus "completed" none now sub)) := by
    simp only [update_task_status]
    rw [hsnd]
    simp [hsubs]
  have hfstfind : ((updateFirst (fun t => t.task_id == sid)
      (applyStatus "completed" none now) tl.tasks).1).find?
        (fun t => t.task_id == sid) =
      some (applyStatus "completed" none now sub) := by
    rw [hself.2, hfind2]
    rfl
  refine ⟨?_, ?_, ?_, ?_⟩
  · intro pid hpid
    rw [hmain]
    show ((updateFirst (fun t => t.task_id == sid)
      (applyStatus "completed" none now) tl.tasks).1).find?
        (fun t => t.task_id == pid) = get_task tl pid
    refine updateFirst_find?_disjoint _ _ _ (fun t ht => ?_) tl.tasks
    have hts : t.task_id = sid := by simpa using ht
    have hsp : (sid == pid) = false :=
      beq_eq_false_iff_ne.mpr (fun h => hpid h.symm)
    constructor
    · rw [applyStatus_task_id, hts]
      exact hsp
    · rw [hts]
      exact hsp
  · rw [hmain]
    show (((updateFirst (fun t => t.task_id == sid)
      (applyStatus "completed" none now) tl.tasks).1).find?
        (fun t => t.task_id == sid)).map Task.status = some "completed"
    rw [hfstfind]
    rw [applyStatus_completed]
    rfl
  · rw [hmain]
    show (((updateFirst (fun t => t.task_id == sid)
      (applyStatus "completed" none now) tl.tasks).1).find?
        (fun t => t.task_id == sid)).bind Task.completed_at = some now
    rw [hfstfind]
    rw [applyStatus_completed]
    rfl
  · have hfix : applyStatus "completed" none now
        (applyStatus "completed" none now sub) =
        applyStatus "completed" none now sub := by
      rw [applyStatus_completed, applyStatus_completed]
    rw [hmain]
    have hupd := updateFirst_fix (fun t => t.task_id == sid)
      (applyStatus "completed" none now) _ _ hfstfind hfix
    simp only [update_task_status]
    rw [hupd]
    simp [hsubs]

/-- C2 witness: the amended theorem applied at the counterexample's
concrete list. -/
theorem update_subtask_completes_only_subtask_witness :
    (∀ pid, pid ≠ "s" →
      get_task (update_task_status c2_list "s" "completed" none 5).1 pid =
        get_task c2_list pid) ∧
    ((get_task (update_task_status c2_list "s" "completed" none 5).1 "s").map
        Task.status = some "completed") ∧
    ((get_task (update_task_status c2_list "s" "completed" none 5).1 "s").bind
        Task.completed_at = some 5) ∧
    update_task_status (update_task_status c2_list "s" "completed" none 5).1
        "s" "completed" none 5 =
      update_task_status c2_list "s" "completed" none 5 :=
  update_subtask_completes_only_subtask c2_list "s"
    { task_id := "s", content := "sub", parent_task_id := some "p" } 5
    (by decide) rfl

/-! ### C10 — status override on a parent with completed subtasks -/

/-- C10: updating a task that has a non-empty subtask list all of whose
present subtasks are completed forces that task's own status to
`"completed"` with a completed-at timestamp, whatever status was
requested; and every other task — in particular any parent of the
updated task — is left unchanged. -/
theorem update_parent_overrides_requested_status
    (tl : TodoList) (tid : String) (t : Task) (status : String)
    (result : Option String) (now : Nat)
    (hfind : get_task tl tid = some t)
    (hsub : t.subtasks ≠ [])
    (hnotself : tid ∉ t.subtasks)
    (hall : ∀ u ∈ tl.tasks, u.task_id ∈ t.subtasks → u.status = "completed") :
    ((get_task (update_task_status tl tid status result now).1 tid).map
        Task.status = some "completed") ∧
    ((get_task (update_task_status tl tid status result now).1 tid).bind
        Task.completed_at = some now) ∧
    (∀ pid, pid ≠ tid →
      get_task (update_task_status tl tid status result now).1 pid =
        get_task tl pid) := by
  have hpresf : ∀ u : Task, (u.task_id == tid) = true →
      ((applyStatus status result now u).task_id == tid) = true := by
    intro u hu
    rw [applyStatus_task_id]
    exact hu
  have hselff := updateFirst_find?_self (fun u => u.task_id == tid)
    (applyStatus status result now) hpresf tl.tasks
  have hfind2 : tl.tasks.find? (fun u => u.task_id == tid) = some t := hfind
  have hsnd : (updateFirst (fun u => u.task_id == tid)
      (applyStatus status result now) tl.tasks).2 =
      some (applyStatus status result now t) := by
    rw [hselff.1, hfind2]
    rfl
  have hfind1 : ((updateFirst (fun u => u.task_id == tid)
      (applyStatus status result now) tl.tasks).1).find?
        (fun u => u.task_id == tid) = some (applyStatus status result now t) := by
    rw [hselff.2, hfind2]
    rfl
  have hsubseq : (applyStatus status result now t).subtasks = t.subtasks :=
    applyStatus_subtasks status result now t
  have hcond1 : (applyStatus status result now t).subtasks.isEmpty = false := by
    rw [hsubseq]
    simpa using hsub
  have hdone : allSubtasksDone ((updateFirst (fun u => u.task_id == tid)
      (applyStatus status result now) tl.tasks).1)
      (applyStatus status result now t).subtasks = true := by
    rw [hsubseq, allSubtasksDone, List.all_eq_true]
    intro u hu
    rcases mem_updateFirst (fun v => v.task_id == tid)
        (applyStatus status result now) tl.tasks u hu with hmem | ⟨v, hv, hpv, huv⟩
    · by_cases hc : u.task_id ∈ t.subtasks
      · have := hall u hmem hc
        simp [this]
      · have hcf : t.subtasks.contains u.task_id = false := by simpa using hc
        simp [hcf]
        exact Or.inl hc
    · have hvid : v.task_id = tid := by simpa using hpv
      have huid : u.task_id = tid := by
        rw [huv, applyStatus_task_id, hvid]
      have hcf : t.subtasks.contains u.task_id = false := by
        rw [huid]
        simpa using hnotself
      simp [hcf]
      exact Or.inl (by rw [huid]; exact hnotself)
  have hpresg : ∀ u : Task, (u.task_id == tid) = true →
      (({ u with status := "completed", completed_at := some now } :
        Task).task_id == tid) = true := by
    intro u hu
    exact hu
  have hgself := updateFirst_find?_self (fun u => u.task_id == tid)
    (fun u => { u with status := "completed", completed_at := some now })
    hpresg ((updateFirst (fun u => u.task_id == tid)
      (applyStatus status result now) tl.tasks).1)
  have hg2 : (updateFirst (fun u => u.task_id == tid)
      (fun u => { u with status := "completed", completed_at := some now })
      ((updateFirst (fun u => u.task_id == tid)
        (applyStatus status result now) tl.tasks).1)).2 =
      some { applyStatus status result now t with
             status := "completed", completed_at := some now } := by
    rw [hgself.1, hfind1]
    rfl
  have hg1 : ((updateFirst (fun u => u.task_id == tid)
      (fun u => { u with status := "completed", completed_at := some now })
      ((updateFirst (fun u => u.task_id == tid)
        (applyStatus status result now) tl.tasks).1)).1).find?
        (fun u => u.task_id == tid) =
      some { applyStatus status result now t with
             status := "completed", completed_at := some now } := by
    rw [hgself.2, hfind1]
    rfl
  have hmain : update_task_status tl tid status result now =
      ({ tl with tasks := (updateFirst (fun u => u.task_id == tid)
          (fun u => { u with status := "completed", completed_at := some now })
          ((updateFirst (fun u => u.task_id == tid)
            (applyStatus status result now) tl.tasks).1)).1 },
       (updateFirst (fun u => u.task_id == tid)
          (fun u => { u with status := "completed", completed_at := some now })
          ((updateFirst (fun u => u.task_id == tid)
            (applyStatus status result now) tl.tasks).1)).2) := by
    simp only [update_task_status]
    rw [hsnd]
    simp [hcond1, hdone]
  refine ⟨?_, ?_, ?_⟩
  · rw [hmain]
    show (((updateFirst (fun u => u.task_id == tid)
      (fun u => { u with status := "completed", completed_at := some now })
      ((updateFirst (fun u => u.task_id == tid)
        (applyStatus status result now) tl.tasks).1)).1).find?
        (fun u => u.task_id == tid)).map Task.status = some "completed"
    rw [hg1]
    rfl
  · rw [hmain]
    show (((updateFirst (fun u => u.task_id == tid)
      (fun u => { u with status := "completed", completed_at := some now })
      ((updateFirst (fun u => u.task_id == tid)
        (applyStatus status result now) tl.tasks).1)).1).find?
        (fun u => u.task_id == tid)).bind Task.completed_at = some now
    rw [hg1]
    rfl
  · intro pid hpid
    have hsp : (tid == pid) = false :=
      beq_eq_false_iff_ne.mpr (fun h => hpid h.symm)
    rw [hmain]
    show (((updateFirst (fun u => u.task_id == tid)
      (fun u => { u with status := "completed", completed_at := some now })
      ((updateFirst (fun u => u.task_id == tid)
        (applyStatus status result now) tl.tasks).1)).1).find?
        (fun u => u.task_id == pid)) = get_task tl pid
    rw [updateFirst_find?_disjoint _ _ _ (fun u hu => ?_)]
    · exact updateFirst_find?_disjoint _ _ _ (fun u hu => by
        have hts : u.task_id = tid := by simpa using hu
        constructor
        · rw [applyStatus_task_id, hts]
          exact hsp
        · rw [hts]
          exact hsp) tl.tasks
    · have hts : u.task_id = tid := by simpa using hu
      constructor
      · show (({ u with status := "completed", completed_at := some now } :
          Task).task_id == pid) = false
        rw [show ({ u with status := "completed", completed_at := some now } :
          Task).task_id = u.task_id from rfl, hts]
        exact hsp
      · rw [hts]
        exact hsp

/-- C10 witness: requesting status `"blocked"` on the parent still ends
with the parent completed (completed-at = 7) and the subtask
untouched. -/
theorem update_parent_overrides_requested_status_witness :
    ((get_task (update_task_status c10_list "p" "blocked" none 7).1 "p").map
        Task.status = some "completed") ∧
    ((get_task (update_task_status c10_list "p" "blocked" none 7).1 "p").bind
        Task.completed_at = some 7) ∧
    (∀ pid, pid ≠ "p" →
      get_task (update_task_status c10_list "p" "blocked" none 7).1 pid =
        get_task c10_list pid) :=
  update_parent_overrides_requested_status c10_list "p"
    { task_id := "p", content := "parent", subtasks := ["s"] }
    "blocked" none 7 (by decide) (by decide) (by decide) (by decide)

/-! ### C6 — next-pending task selection -/

/-- The sort comparison is reflexive. -/
theorem taskLe_refl (a : Task) : taskLe a a = true := by
  simp [taskLe]

/-- The sort comparison is total. -/
theorem taskLe_total (a b : Task) : (taskLe a b || taskLe b a) = true := by
  simp only [taskLe, Bool.or_eq_true, Bool.and_eq_true, Nat.blt_eq,
    Nat.ble_eq, beq_iff_eq]
  omega

/-- The sort comparison is transitive. -/
theorem taskLe_trans (a b c : Task) (h1 : taskLe a b = true)
    (h2 : taskLe b c = true) : taskLe a c = true := by
  simp only [taskLe, Bool.or_eq_true, Bool.and_eq_true, Nat.blt_eq,
    Nat.ble_eq, beq_iff_eq] at h1 h2 ⊢
  omega

/-- In a list sorted by `le`, the first element satisfying `p` is
`le`-below every element satisfying `p`. -/
theorem find?_le_of_pairwise {α : Type} {le : α → α → Bool} {p : α → Bool}
    (hrefl : ∀ a, le a a = true) :
    ∀ {l : List α} {r : α}, List.Pairwise (fun a b => le a b = true) l →
      l.find? p = some r → ∀ t ∈ l, p t = true → le r t = true := by
  intro l
  induction l with
  | nil =>
    intro r _ h
    simp at h
  | cons a as ih =>
    intro r hp hfind t ht hpt
    rcases List.pairwise_cons.mp hp with ⟨hhead, htail⟩
    by_cases hpa : p a = true
    · have hra : r = a := by
        have := hfind
        simp [List.find?, hpa] at this
        exact this.symm
      subst hra
      rcases List.mem_cons.mp ht with h | h
      · subst h
        exact hrefl _
      · exact hhead t h
    · have hpaf : p a = false := by simpa using hpa
      have hfind2 : as.find? p = some r := by
        simpa [List.find?, hpaf] using hfind
      rcases List.mem_cons.mp ht with h | h
      · subst h
        rw [hpt] at hpaf
        cases hpaf
      · exact ih htail hfind2 t h hpt

/-- In a list sorted by `le`, the head is `le`-below every element. -/
theorem head?_le_of_pairwise {α : Type} {le : α → α → Bool}
    (hrefl : ∀ a, le a a = true) :
    ∀ {l : List α} {r : α}, List.Pairwise (fun a b => le a b = true) l →
      l.head? = some r → ∀ t ∈ l, le r t = true := by
  intro l
  cases l with
  | nil =>
    intro r _ h
    simp at h
  | cons a as =>
    intro r hp hhead t ht
    have hra : r = a := by simpa using hhead.symm
    subst hra
    rcases List.pairwise_cons.mp hp with ⟨hhd, _⟩
    rcases List.mem_cons.mp ht with h | h
    · subst h
      exact hrefl _
    · exact hhd t h

/-- C6: characterization of `get_next_task` on lists whose pending
tasks carry valid priorities (so that no `ValueError` fires).  The
selection (i) is `none` exactly when no task is pending, (ii) always
returns a pending task of the list, (iii) when some pending task has
all dependencies resolved, returns such a task that is, by priority
rank then creation time, below every dependency-resolved pending task,
(iv) when no pending task has resolved dependencies still returns a
pending task below every pending task (the anti-livelock fallback), and
(v) treats a dependency id referencing no present task as resolved. -/
theorem get_next_task_characterization (tl : TodoList)
    (hvalid : ∀ t ∈ tl.tasks, t.status = "pending" →
      (priorityRank? t.priority).isSome = true) :
    ∃ pts, get_next_task tl = some pts ∧
      ((pts = none) ↔ ∀ t ∈ tl.tasks, t.status ≠ "pending") ∧
      (∀ r, pts = some r → r.status = "pending" ∧ r ∈ tl.tasks) ∧
      (∀ r, pts = some r →
        (∃ t ∈ tl.tasks, t.status = "pending" ∧ depsResolved tl t = true) →
          depsResolved tl r = true ∧
          ∀ t ∈ tl.tasks, t.status = "pending" → depsResolved tl t = true →
            taskLe r t = true) ∧
      (∀ r, pts = some r →
        (∀ t ∈ tl.tasks, t.status = "pending" → depsResolved tl t = false) →
          ∀ t ∈ tl.tasks, t.status = "pending" → taskLe r t = true) ∧
      (∀ t : Task, (∀ d ∈ t.dependencies, get_task tl d = none) →
        depsResolved tl t = true) := by
  have hE : ∀ t : Task, (∀ d ∈ t.dependencies, get_task tl d = none) →
      depsResolved tl t = true := by
    intro t hnone
    rw [depsResolved, List.all_eq_true]
    intro d hd
    rw [hnone d hd]
  have hall : (tl.tasks.filter (fun t => t.status == "pending")).all
      (fun t => (priorityRank? t.priority).isSome) = true := by
    rw [List.all_eq_true]
    intro t ht
    have h2 := List.mem_filter.mp ht
    exact hvalid t h2.1 (by simpa using h2.2)
  have hgp : get_pending_tasks tl =
      some ((tl.tasks.filter (fun t => t.status == "pending")).mergeSort taskLe) := by
    simp [get_pending_tasks, hall]
  have hperm := List.mergeSort_perm
    (tl.tasks.filter (fun t => t.status == "pending")) taskLe
  have hsorted := List.sorted_mergeSort
    (fun a b c => taskLe_trans a b c) taskLe_total
    (tl.tasks.filter (fun t => t.status == "pending"))
  have hmem : ∀ r, r ∈ (tl.tasks.filter
      (fun t => t.status == "pending")).mergeSort taskLe →
      r.status = "pending" ∧ r ∈ tl.tasks := by
    intro r hr
    have h2 := List.mem_filter.mp (hperm.mem_iff.mp hr)
    exact ⟨by simpa using h2.2, h2.1⟩
  have hmem2 : ∀ t ∈ tl.tasks, t.status = "pending" →
      t ∈ (tl.tasks.filter (fun t => t.status == "pending")).mergeSort taskLe := by
    intro t ht hs
    exact hperm.mem_iff.mpr (List.mem_filter.mpr ⟨ht, by simpa using hs⟩)
  have hnil : ((tl.tasks.filter (fun t => t.status == "pending")).mergeSort
      taskLe = []) ↔ (∀ t ∈ tl.tasks, t.status ≠ "pending") := by
    rw [← List.length_eq_zero, hperm.length_eq, List.length_eq_zero,
      List.filter_eq_nil_iff]
    simp
  cases hfind : ((tl.tasks.filter (fun t => t.status == "pending")).mergeSort
      taskLe).find? (depsResolved tl) with
  | some r0 =>
    have hr0mem := hmem r0 (List.mem_of_find?_eq_some hfind)
    refine ⟨some r0, by simp [get_next_task, hgp, hfind], ?_, ?_, ?_, ?_, hE⟩
    · constructor
      · intro h
        cases h
      · intro h
        exact absurd hr0mem.1 (h r0 hr0mem.2)
    · intro r hr
      cases hr
      exact hr0mem
    · intro r hr _
      cases hr
      refine ⟨List.find?_some hfind, ?_⟩
      intro t ht hts hres
      exact find?_le_of_pairwise taskLe_refl hsorted hfind t
        (hmem2 t ht hts) hres
    · intro r hr hnone
      cases hr
      have := hnone r0 hr0mem.2 hr0mem.1
      rw [List.find?_some hfind] at this
      cases this
  | none =>
    cases hhead : ((tl.tasks.filter (fun t => t.status == "pending")).mergeSort
        taskLe).head? with
    | none =>
      have hempty := List.head?_eq_none_iff.mp hhead
      refine ⟨none, by simp [get_next_task, hgp, hfind, hhead], ?_, ?_, ?_, ?_, hE⟩
      · exact iff_of_true rfl (hnil.mp hempty)
      · intro r hr
        cases hr
      · intro r hr
        cases hr
      · intro r hr
        cases hr
    | some r0 =>
      have hr0mem : r0 ∈ (tl.tasks.filter
          (fun t => t.status == "pending")).mergeSort taskLe := by
        cases hl : (tl.tasks.filter (fun t => t.status == "pending")).mergeSort
            taskLe with
        | nil => rw [hl] at hhead; cases hhead
        | cons a as =>
          rw [hl] at hhead
          have hr0a : r0 = a := by simpa using hhead.symm
          rw [hr0a]
          exact List.mem_cons_self a as
      have hr0p := hmem r0 hr0mem
      refine ⟨some r0, by simp [get_next_task, hgp, hfind, hhead], ?_, ?_, ?_, ?_, hE⟩
      · constructor
        · intro h
          cases h
        · intro h
          exact absurd hr0p.1 (h r0 hr0p.2)
      · intro r hr
        cases hr
        exact hr0p
      · intro r hr hex
        exfalso
        obtain ⟨t, ht, hts, hres⟩ := hex
        have := List.find?_eq_none.mp hfind t (hmem2 t ht hts)
        exact this hres
      · intro r hr _ t ht hts
        cases hr
        exact head?_le_of_pairwise taskLe_refl hsorted hhead t (hmem2 t ht hts)

/-- C6 witness: the characterization applied to `c6_list`, whose
priorities are valid. -/
theorem get_next_task_characterization_witness :
    ∃ pts, get_next_task c6_list = some pts ∧
      ((pts = none) ↔ ∀ t ∈ c6_list.tasks, t.status ≠ "pending") ∧
      (∀ r, pts = some r → r.status = "pending" ∧ r ∈ c6_list.tasks) ∧
      (∀ r, pts = some r →
        (∃ t ∈ c6_list.tasks, t.status = "pending" ∧
            depsResolved c6_list t = true) →
          depsResolved c6_list r = true ∧
          ∀ t ∈ c6_list.tasks, t.status = "pending" →
            depsResolved c6_list t = true → taskLe r t = true) ∧
      (∀ r, pts = some r →
        (∀ t ∈ c6_list.tasks, t.status = "pending" →
            depsResolved c6_list t = false) →
          ∀ t ∈ c6_list.tasks, t.status = "pending" → taskLe r t = true) ∧
      (∀ t : Task, (∀ d ∈ t.dependencies, get_task c6_list d = none) →
        depsResolved c6_list t = true) :=
  get_next_task_characterization c6_list (by decide)

end Horizon
